import Mathlib

/-!
# Verification of `ukpostcodeparser`

A shallow embedding of `ukpostcodeparser/parser.py` and
`ukpostcodeparser/exceptions.py`.

Python strings are modelled as lists of Unicode code points (`List Nat`).
`str.upper()` is modelled on the ASCII range (the only range the postcode
grammar and the inputs of interest touch).  The Python regular expressions
`POSTCODE_REGEX` and `STANDALONE_OUTCODE_REGEX` are specialised to
backtracking matchers over the concrete patterns built in the source:
`outcodeCandidates` enumerates, in the order the `re` engine tries them,
every way the outcode group can match a prefix of the input.
-/

namespace UkPostcode

/-- Code points of a string literal; the embedding of a Python `str` value. -/
def str (s : String) : List Nat :=
  s.data.map Char.toNat

/-- Python `str.upper()` on one code point, modelled on the ASCII range:
`'a'..'z'` (97..122) maps down by 32, everything else is unchanged. -/
def upperChar (c : Nat) : Nat :=
  if 97 ≤ c ∧ c ≤ 122 then c - 32 else c

/-- The normalization performed by `parse_uk_postcode`:
`postcode.replace(' ', '').upper()` — every space (code point 32) is removed,
including internal ones, and the rest is uppercased. -/
def normalize (s : List Nat) : List Nat :=
  (s.filter (fun c => c ≠ 32)).map upperChar

/-- Python regex `\d` on an ASCII code point (characters `'0'..'9'`). -/
def isDigitCh (c : Nat) : Bool :=
  decide (48 ≤ c ∧ c ≤ 57)

/-- Python regex `\s` on an ASCII code point: space, tab, newline,
vertical tab, form feed, carriage return. -/
def isSpaceCh (c : Nat) : Bool :=
  c = 32 ∨ c = 9 ∨ c = 10 ∨ c = 11 ∨ c = 12 ∨ c = 13

/-- `POSTAL_ZONES` from the source: the closed list of UK postal zone codes. -/
def POSTAL_ZONES : List (List Nat) :=
  (["AB", "AL", "B" , "BA", "BB", "BD", "BH", "BL", "BN", "BR",
    "BS", "BT", "CA", "CB", "CF", "CH", "CM", "CO", "CR", "CT",
    "CV", "CW", "DA", "DD", "DE", "DG", "DH", "DL", "DN", "DT",
    "DY", "E" , "EC", "EH", "EN", "EX", "FK", "FY", "G" , "GL",
    "GY", "GU", "HA", "HD", "HG", "HP", "HR", "HS", "HU", "HX",
    "IG", "IM", "IP", "IV", "JE", "KA", "KT", "KW", "KY", "L" ,
    "LA", "LD", "LE", "LL", "LN", "LS", "LU", "M" , "ME", "MK",
    "ML", "N" , "NE", "NG", "NN", "NP", "NR", "NW", "OL", "OX",
    "PA", "PE", "PH", "PL", "PO", "PR", "RG", "RH", "RM", "S" ,
    "SA", "SE", "SG", "SK", "SL", "SM", "SN", "SO", "SP", "SR",
    "SS", "ST", "SW", "SY", "TA", "TD", "TF", "TN", "TQ", "TR",
    "TS", "TW", "UB", "W" , "WA", "WC", "WD", "WF", "WN", "WR",
    "WS", "WV", "YO", "ZE"]).map str

/-- `POSTAL_ZONES_ONE_CHAR`: the single-letter zones. -/
def POSTAL_ZONES_ONE_CHAR : List (List Nat) :=
  POSTAL_ZONES.filter (fun z => z.length == 1)

/-- `POSTAL_ZONES_TWO_CHARS`: the two-letter zones. -/
def POSTAL_ZONES_TWO_CHARS : List (List Nat) :=
  POSTAL_ZONES.filter (fun z => z.length == 2)

/-- `THIRD_POS_CHARS` from the source. -/
def THIRD_POS_CHARS : List Nat :=
  (['A', 'B', 'C', 'D', 'E', 'F', 'G', 'H', 'J', 'K', 'M',
    'N', 'P', 'R', 'S', 'T', 'U', 'V', 'W', 'X', 'Y']).map Char.toNat

/-- `FOURTH_POS_CHARS` from the source. -/
def FOURTH_POS_CHARS : List Nat :=
  (['A', 'B', 'E', 'H', 'M', 'N', 'P', 'R', 'V', 'W', 'X',
    'Y']).map Char.toNat

/-- `INCODE_CHARS` from the source. -/
def INCODE_CHARS : List Nat :=
  (['A', 'B', 'D', 'E', 'F', 'G', 'H', 'J', 'L', 'N', 'P', 'Q',
    'R', 'S', 'T', 'U', 'W', 'X', 'Y', 'Z']).map Char.toNat

/-- All ways the sub-pattern `(?:\d[allowed]|\d{1,2})` can match after a zone
`pre`, in the order Python's backtracking `re` engine tries them:
`\d[allowed]` first, then `\d{1,2}` greedily (two digits before one).
Each candidate is the outcode group matched so far paired with the rest of
the input. -/
def digitTail (pre : List Nat) (allowed : List Nat) :
    List Nat → List (List Nat × List Nat)
  | d :: t :: r =>
      (if isDigitCh d && allowed.contains t then [(pre ++ [d, t], r)] else [])
      ++ (if isDigitCh d && isDigitCh t then [(pre ++ [d, t], r)] else [])
      ++ (if isDigitCh d then [(pre ++ [d], t :: r)] else [])
  | [d] => if isDigitCh d then [(pre ++ [d], [])] else []
  | [] => []

/-- The single-letter-zone alternative of `OUTCODE_PATTERN`:
`(?:B|E|G|L|M|N|S|W)(?:\d[THIRD_POS_CHARS]|\d{1,2})`. -/
def oneCharCandidates : List Nat → List (List Nat × List Nat)
  | c :: rest =>
      if POSTAL_ZONES_ONE_CHAR.contains [c] then
        digitTail [c] THIRD_POS_CHARS rest
      else []
  | [] => []

/-- The two-letter-zone alternative of `OUTCODE_PATTERN`:
`(?:AB|AL|...)(?:\d[FOURTH_POS_CHARS]|\d{1,2})`. -/
def twoCharCandidates : List Nat → List (List Nat × List Nat)
  | c1 :: c2 :: rest =>
      if POSTAL_ZONES_TWO_CHARS.contains [c1, c2] then
        digitTail [c1, c2] FOURTH_POS_CHARS rest
      else []
  | _ => []

/-- The `BF1` British Forces literal alternative of `OUTCODE_PATTERN`. -/
def bf1Candidates : List Nat → List (List Nat × List Nat)
  | c1 :: c2 :: c3 :: rest =>
      if [c1, c2, c3] = str "BF1" then [(str "BF1", rest)] else []
  | _ => []

/-- All prefixes of `s` the outcode group `OUTCODE_PATTERN` can match, as
(matched outcode, rest) pairs, in the order the `re` engine tries them:
the single-letter-zone alternative, then the two-letter-zone alternative,
then the `BF1` British Forces literal. -/
def outcodeCandidates (s : List Nat) : List (List Nat × List Nat) :=
  oneCharCandidates s ++ twoCharCandidates s ++ bf1Candidates s

/-- The incode group `INCODE_PATTERN = (\d[INCODE_CHARS][INCODE_CHARS])`
matched at the head of `s`: the three matched characters and the rest. -/
def incodeMatch (s : List Nat) : Option (List Nat × List Nat) :=
  match s with
  | d :: a :: b :: r =>
      if isDigitCh d && INCODE_CHARS.contains a && INCODE_CHARS.contains b then
        some ([d, a, b], r)
      else none
  | _ => none

/-- First outcode candidate whose rest starts with an incode match; the
backtracking search of `POSTCODE_REGEX.match`, returning `group(1, 2)`. -/
def firstFullMatch : List (List Nat × List Nat) → Option (List Nat × List Nat)
  | [] => none
  | (o, r) :: rest =>
      match incodeMatch r with
      | some (i, _) => some (o, i)
      | none => firstFullMatch rest

/-- `POSTCODE_REGEX.match(p)`, with `group(1)` and `group(2)` on success. -/
def postcodeMatch (s : List Nat) : Option (List Nat × List Nat) :=
  firstFullMatch (outcodeCandidates s)

/-- First outcode candidate whose rest is matched by `\s*$` (entirely
whitespace); the backtracking search of `STANDALONE_OUTCODE_REGEX.match`. -/
def firstOutcodeOnly : List (List Nat × List Nat) → Option (List Nat)
  | [] => none
  | (o, r) :: rest =>
      if r.all isSpaceCh then some o else firstOutcodeOnly rest

/-- `STANDALONE_OUTCODE_REGEX.match(p)`, with `group(1)` on success. -/
def standaloneOutcodeMatch (s : List Nat) : Option (List Nat) :=
  firstOutcodeOnly (outcodeCandidates s)

/-- The three errors `parse_uk_postcode` can raise. -/
inductive PostcodeError where
  | maxLengthExceeded
  | incodeNotFound
  | invalidPostcode
deriving DecidableEq, Repr

/-- Result of a call to `parse_uk_postcode`: the returned
(outcode, incode) pair, or the raised error. -/
inductive PResult where
  | ok (outcode incode : List Nat)
  | err (e : PostcodeError)
deriving DecidableEq, Repr

/-- Body of `parse_uk_postcode` after the initial
`postcode = postcode.replace(' ', '').upper()` assignment: the argument `p`
is the already-normalized postcode. -/
def parseNormalized (p : List Nat) (strict : Bool)
    (incode_mandatory : Bool) : PResult :=
  if p.length > 7 then .err .maxLengthExceeded
  else if strict then
    match postcodeMatch p with
    | some (o, i) => .ok o i
    | none =>
      match standaloneOutcodeMatch p with
      | some o =>
          if incode_mandatory then .err .incodeNotFound else .ok o []
      | none =>
          if p = str "GIR0AA" then .ok (str "GIR") (str "0AA")
          else if p = str "GIR" then
            if incode_mandatory then .err .incodeNotFound
            else .ok (str "GIR") []
          else .err .invalidPostcode
  else
    if p.length ≤ 4 then
      if incode_mandatory then .err .incodeNotFound else .ok p []
    else .ok (p.take (p.length - 3)) (p.drop (p.length - 3))

/-- `parse_uk_postcode(postcode, strict, incode_mandatory)` from
`ukpostcodeparser/parser.py`: normalize, then run the decision tree. -/
def parse_uk_postcode (postcode : List Nat) (strict : Bool)
    (incode_mandatory : Bool) : PResult :=
  parseNormalized (normalize postcode) strict incode_mandatory

/-- The exception classes of `ukpostcodeparser/exceptions.py`, together with
the Python builtin `ValueError` they derive from. -/
inductive PyExcClass where
  | valueError
  | invalidPostcodeError
  | maxLengthExceededError
  | incodeNotFoundError
deriving DecidableEq, Repr

/-- The direct base class declared for each class in
`ukpostcodeparser/exceptions.py` (`ValueError` is the host builtin and the
root of this chain, so it has no base here). -/
def superclass : PyExcClass → Option PyExcClass
  | .invalidPostcodeError => some .valueError
  | .maxLengthExceededError => some .invalidPostcodeError
  | .incodeNotFoundError => some .invalidPostcodeError
  | .valueError => none

/-- The chain of base classes of `c`, fuel-bounded (the hierarchy has depth
at most 3, so fuel 4 is exact). -/
def ancestry : Nat → PyExcClass → List PyExcClass
  | 0, _ => []
  | n + 1, c =>
      c :: (match superclass c with
            | some p => ancestry n p
            | none => [])

/-- The full class chain of `c`, starting at `c` itself. -/
def classChain (c : PyExcClass) : List PyExcClass :=
  ancestry 4 c

/-- Python `except handler` catches an exception of class `e` exactly when
`handler` appears in the class chain of `e`. -/
def catches (handler e : PyExcClass) : Bool :=
  (classChain e).contains handler

/-- The exception class each `parse_uk_postcode` error is raised with. -/
def errClass : PostcodeError → PyExcClass
  | .maxLengthExceeded => .maxLengthExceededError
  | .incodeNotFound => .incodeNotFoundError
  | .invalidPostcode => .invalidPostcodeError

/-- The normalization claim C1 describes, following the spec text: every
whitespace character (not only spaces) removed, then uppercased.  For
comparison with `normalize`, which removes only spaces. -/
def claimNormalize (s : List Nat) : List Nat :=
  (s.filter (fun c => !(isSpaceCh c))).map upperChar

/-! ## Helper lemmas -/

theorem upperChar_idem (c : Nat) : upperChar (upperChar c) = upperChar c := by
  unfold upperChar
  by_cases h : 97 ≤ c ∧ c ≤ 122
  · simp only [if_pos h]
    rw [if_neg (by omega)]
  · simp only [if_neg h]

theorem upperChar_ne_32 (c : Nat) (h : c ≠ 32) : upperChar c ≠ 32 := by
  unfold upperChar
  split <;> omega

theorem normalize_idem (s : List Nat) :
    normalize (normalize s) = normalize s := by
  unfold normalize
  rw [List.filter_eq_self.mpr]
  · rw [List.map_map]
    simp only [Function.comp_def, upperChar_idem]
  · intro a ha
    rw [List.mem_map] at ha
    obtain ⟨b, hb, rfl⟩ := ha
    rw [List.mem_filter] at hb
    have hb32 : b ≠ 32 := by simpa using hb.2
    simpa using upperChar_ne_32 b hb32

theorem digitTail_append (pre allowed rest : List Nat) (o r : List Nat)
    (h : (o, r) ∈ digitTail pre allowed rest) : o ++ r = pre ++ rest := by
  match rest with
  | [] => simp [digitTail] at h
  | [d] =>
    simp only [digitTail] at h
    split at h <;> simp_all
  | d :: t :: r0 =>
    simp only [digitTail, List.mem_append] at h
    rcases h with (h | h) | h <;>
      (split at h <;> simp_all)

theorem oneCharCandidates_append (s : List Nat) (o r : List Nat)
    (h : (o, r) ∈ oneCharCandidates s) : o ++ r = s := by
  cases s with
  | nil => simp [oneCharCandidates] at h
  | cons c rest =>
    simp only [oneCharCandidates] at h
    split at h
    · simpa using digitTail_append [c] THIRD_POS_CHARS rest o r h
    · simp at h

theorem twoCharCandidates_append (s : List Nat) (o r : List Nat)
    (h : (o, r) ∈ twoCharCandidates s) : o ++ r = s := by
  cases s with
  | nil => simp [twoCharCandidates] at h
  | cons c1 s1 =>
    cases s1 with
    | nil => simp [twoCharCandidates] at h
    | cons c2 rest =>
      simp only [twoCharCandidates] at h
      split at h
      · simpa using digitTail_append [c1, c2] FOURTH_POS_CHARS rest o r h
      · simp at h

theorem bf1Candidates_append (s : List Nat) (o r : List Nat)
    (h : (o, r) ∈ bf1Candidates s) : o ++ r = s := by
  cases s with
  | nil => simp [bf1Candidates] at h
  | cons c1 s1 =>
    cases s1 with
    | nil => simp [bf1Candidates] at h
    | cons c2 s2 =>
      cases s2 with
      | nil => simp [bf1Candidates] at h
      | cons c3 rest =>
        simp only [bf1Candidates] at h
        split at h
        · rename_i hc
          obtain ⟨rfl, rfl⟩ : o = str "BF1" ∧ r = rest := by simpa using h
          rw [← hc]
          rfl
        · simp at h

theorem outcodeCandidates_append (s : List Nat) (o r : List Nat)
    (h : (o, r) ∈ outcodeCandidates s) : o ++ r = s := by
  unfold outcodeCandidates at h
  rw [List.mem_append, List.mem_append] at h
  rcases h with (h | h) | h
  · exact oneCharCandidates_append s o r h
  · exact twoCharCandidates_append s o r h
  · exact bf1Candidates_append s o r h

theorem incodeMatch_spec (s i r : List Nat)
    (h : incodeMatch s = some (i, r)) : i ++ r = s ∧ i.length = 3 := by
  cases s with
  | nil => simp [incodeMatch] at h
  | cons d s1 =>
    cases s1 with
    | nil => simp [incodeMatch] at h
    | cons a s2 =>
      cases s2 with
      | nil => simp [incodeMatch] at h
      | cons b r0 =>
        simp only [incodeMatch] at h
        split at h
        · obtain ⟨rfl, rfl⟩ : i = [d, a, b] ∧ r = r0 := by
            constructor <;> simp_all
          exact ⟨rfl, rfl⟩
        · simp at h

theorem firstFullMatch_spec (cs : List (List Nat × List Nat))
    (o i : List Nat) (h : firstFullMatch cs = some (o, i)) :
    ∃ r r', (o, r) ∈ cs ∧ incodeMatch r = some (i, r') := by
  induction cs with
  | nil => simp [firstFullMatch] at h
  | cons hd tl ih =>
    obtain ⟨oh, rh⟩ := hd
    unfold firstFullMatch at h
    split at h
    · rename_i i' r' heq
      obtain ⟨rfl, rfl⟩ : oh = o ∧ i' = i := by simpa using h
      exact ⟨rh, r', by simp, heq⟩
    · obtain ⟨r, r', hmem, hinc⟩ := ih h
      exact ⟨r, r', by simp [hmem], hinc⟩

theorem postcodeMatch_spec (p o i : List Nat)
    (h : postcodeMatch p = some (o, i)) :
    (∃ t, (o ++ i) ++ t = p) ∧ i.length = 3 := by
  obtain ⟨r, r', hmem, hinc⟩ := firstFullMatch_spec _ o i h
  have h1 := outcodeCandidates_append p o r hmem
  have h2 := incodeMatch_spec r i r' hinc
  refine ⟨⟨r', ?_⟩, h2.2⟩
  rw [List.append_assoc, h2.1, h1]

theorem firstOutcodeOnly_spec (cs : List (List Nat × List Nat))
    (o : List Nat) (h : firstOutcodeOnly cs = some o) :
    ∃ r, (o, r) ∈ cs := by
  induction cs with
  | nil => simp [firstOutcodeOnly] at h
  | cons hd tl ih =>
    obtain ⟨oh, rh⟩ := hd
    unfold firstOutcodeOnly at h
    split at h
    · obtain rfl : oh = o := by simpa using h
      exact ⟨rh, by simp⟩
    · obtain ⟨r, hmem⟩ := ih h
      exact ⟨r, by simp [hmem]⟩

theorem standaloneOutcodeMatch_spec (p o : List Nat)
    (h : standaloneOutcodeMatch p = some o) : ∃ r, o ++ r = p := by
  obtain ⟨r, hmem⟩ := firstOutcodeOnly_spec _ o h
  exact ⟨r, outcodeCandidates_append p o r hmem⟩

/-! ## Claim theorems -/

/-- Claim C2: `parse_uk_postcode` fails with `MaxLengthExceeded` exactly when
the normalized input is longer than 7 characters, for every combination of
the `strict` and `incode_mandatory` flags; in particular the length check
precedes every other validation, and no other branch ever reports
`MaxLengthExceeded`. -/
theorem c2_max_length_iff (s : List Nat) (strict im : Bool) :
    parse_uk_postcode s strict im = .err .maxLengthExceeded ↔
      7 < (normalize s).length := by
  unfold parse_uk_postcode parseNormalized
  split
  · rename_i h7
    simp [h7]
  · rename_i h7
    apply iff_of_false ?_ (by omega)
    split
    · split
      · simp
      · split
        · split <;> simp
        · split
          · simp
          · split
            · split <;> simp
            · simp
    · split
      · split <;> simp
      · simp

/-- Claim C5: in non-strict mode, `parse_uk_postcode` never fails with the
plain `InvalidPostcode` error, for every input and every value of
`incode_mandatory`. -/
theorem c5_nonstrict_no_invalid (s : List Nat) (im : Bool) :
    parse_uk_postcode s false im ≠ .err .invalidPostcode := by
  unfold parse_uk_postcode parseNormalized
  split
  · simp
  · split
    · simp_all
    · split
      · split <;> simp
      · simp

/-- Witness for C5 at a concrete input. -/
theorem c5_nonstrict_no_invalid_witness :
    parse_uk_postcode (str "@@@@@@@@@") false true ≠
      .err .invalidPostcode :=
  c5_nonstrict_no_invalid (str "@@@@@@@@@") true

/-- Claim C4: in non-strict mode, an input normalizing to 5–7 characters is
split positionally into (all but the last 3, last 3) regardless of
`incode_mandatory`; an input normalizing to at most 4 characters fails with
`IncodeNotFound` when `incode_mandatory` is true and is returned whole with
an empty incode when it is false. -/
theorem c4_nonstrict_slicing (s : List Nat) :
    (∀ im : Bool, 5 ≤ (normalize s).length → (normalize s).length ≤ 7 →
        parse_uk_postcode s false im =
          .ok ((normalize s).take ((normalize s).length - 3))
              ((normalize s).drop ((normalize s).length - 3)))
    ∧ ((normalize s).length ≤ 4 →
        parse_uk_postcode s false true = .err .incodeNotFound
        ∧ parse_uk_postcode s false false = .ok (normalize s) []) := by
  unfold parse_uk_postcode parseNormalized
  refine ⟨?_, ?_⟩
  · intro im h5 h7
    rw [if_neg (show ¬ ((normalize s).length > 7) by omega),
        if_neg (show ¬ (false = true) by simp),
        if_neg (show ¬ ((normalize s).length ≤ 4) by omega)]
  · intro h4
    constructor
    · rw [if_neg (show ¬ ((normalize s).length > 7) by omega),
          if_neg (show ¬ (false = true) by simp),
          if_pos h4, if_pos rfl]
    · rw [if_neg (show ¬ ((normalize s).length > 7) by omega),
          if_neg (show ¬ (false = true) by simp),
          if_pos h4, if_neg (show ¬ (false = true) by simp)]

/-- Witness for C4 at concrete inputs covering both branches. -/
theorem c4_nonstrict_slicing_witness :
    parse_uk_postcode (str "xx0 2yr") false true =
      .ok ((normalize (str "xx0 2yr")).take
             ((normalize (str "xx0 2yr")).length - 3))
          ((normalize (str "xx0 2yr")).drop
             ((normalize (str "xx0 2yr")).length - 3))
    ∧ (parse_uk_postcode (str "cr0") false true = .err .incodeNotFound
       ∧ parse_uk_postcode (str "cr0") false false =
           .ok (normalize (str "cr0")) []) :=
  ⟨(c4_nonstrict_slicing (str "xx0 2yr")).1 true (by decide) (by decide),
   (c4_nonstrict_slicing (str "cr0")).2 (by decide)⟩

/-- Claim C8: whenever `parse_uk_postcode` returns a pair, the combined
length of outcode and incode is at most 7, and the incode is either empty
or exactly 3 characters, for every input and flag combination. -/
theorem c8_result_invariant (s : List Nat) (strict im : Bool)
    (o i : List Nat) (h : parse_uk_postcode s strict im = .ok o i) :
    o.length + i.length ≤ 7 ∧ (i = [] ∨ i.length = 3) := by
  unfold parse_uk_postcode parseNormalized at h
  split at h
  · simp at h
  · rename_i h7
    split at h
    · split at h
      · rename_i o' i' hpm
        obtain ⟨rfl, rfl⟩ : o' = o ∧ i' = i := by simpa using h
        obtain ⟨⟨t, ht⟩, hi3⟩ := postcodeMatch_spec _ _ _ hpm
        have hlen := congrArg List.length ht
        simp only [List.length_append] at hlen
        exact ⟨by omega, Or.inr hi3⟩
      · split at h
        · rename_i o' hso
          split at h
          · simp at h
          · obtain ⟨rfl, rfl⟩ : o' = o ∧ ([] : List Nat) = i := by
              simpa using h
            obtain ⟨r, hr⟩ := standaloneOutcodeMatch_spec _ _ hso
            have hlen := congrArg List.length hr
            simp only [List.length_append] at hlen
            refine ⟨?_, Or.inl rfl⟩
            simp only [List.length_nil]
            omega
        · split at h
          · obtain ⟨rfl, rfl⟩ : str "GIR" = o ∧ str "0AA" = i := by
              simpa using h
            exact ⟨by decide, Or.inr (by decide)⟩
          · split at h
            · split at h
              · simp at h
              · obtain ⟨rfl, rfl⟩ : str "GIR" = o ∧ ([] : List Nat) = i := by
                  simpa using h
                exact ⟨by decide, Or.inl rfl⟩
            · simp at h
    · split at h
      · split at h
        · simp at h
        · rename_i h4 _
          obtain ⟨rfl, rfl⟩ : normalize s = o ∧ ([] : List Nat) = i := by
            simpa using h
          refine ⟨?_, Or.inl rfl⟩
          simp only [List.length_nil]
          omega
      · rename_i h4
        obtain ⟨rfl, rfl⟩ :
            (normalize s).take ((normalize s).length - 3) = o
            ∧ (normalize s).drop ((normalize s).length - 3) = i := by
          simpa using h
        constructor
        · simp only [List.length_take, List.length_drop]
          omega
        · refine Or.inr ?_
          simp only [List.length_drop]
          omega

/-- Witness for C8 at a concrete input. -/
theorem c8_result_invariant_witness :
    (str "CR0").length + (str "2YR").length ≤ 7
    ∧ (str "2YR" = [] ∨ (str "2YR").length = 3) :=
  c8_result_invariant (str "cr0 2yr") true true (str "CR0") (str "2YR")
    (by decide)

/-- Claim C3 (amended): whenever `parse_uk_postcode` returns a pair, the
concatenation of outcode and incode is a prefix of the normalized input; a
successful strict full-postcode match need not consume the whole normalized
input. -/
theorem c3_concatenation (s : List Nat) (strict im : Bool)
    (o i : List Nat) (h : parse_uk_postcode s strict im = .ok o i) :
    ∃ t, (o ++ i) ++ t = normalize s := by
  unfold parse_uk_postcode parseNormalized at h
  split at h
  · simp at h
  · split at h
    · split at h
      · rename_i o' i' hpm
        obtain ⟨rfl, rfl⟩ : o' = o ∧ i' = i := by simpa using h
        exact (postcodeMatch_spec _ _ _ hpm).1
      · split at h
        · rename_i o' hso
          split at h
          · simp at h
          · obtain ⟨rfl, rfl⟩ : o' = o ∧ ([] : List Nat) = i := by
              simpa using h
            obtain ⟨r, hr⟩ := standaloneOutcodeMatch_spec _ _ hso
            exact ⟨r, by simpa using hr⟩
        · split at h
          · rename_i hgir
            obtain ⟨rfl, rfl⟩ : str "GIR" = o ∧ str "0AA" = i := by
              simpa using h
            exact ⟨[], by rw [hgir]; rfl⟩
          · split at h
            · split at h
              · simp at h
              · rename_i hgir _
                obtain ⟨rfl, rfl⟩ : str "GIR" = o ∧ ([] : List Nat) = i := by
                  simpa using h
                exact ⟨[], by rw [hgir]; rfl⟩
            · simp at h
    · split at h
      · split at h
        · simp at h
        · obtain ⟨rfl, rfl⟩ : normalize s = o ∧ ([] : List Nat) = i := by
            simpa using h
          exact ⟨[], by simp⟩
      · obtain ⟨rfl, rfl⟩ :
            (normalize s).take ((normalize s).length - 3) = o
            ∧ (normalize s).drop ((normalize s).length - 3) = i := by
          simpa using h
        exact ⟨[], by simp⟩

/-- Witness for C3 at a concrete input. -/
theorem c3_concatenation_witness :
    ∃ t, (str "CR0" ++ str "2YR") ++ t = normalize (str "cr0 2yr") :=
  c3_concatenation (str "cr0 2yr") true true (str "CR0") (str "2YR")
    (by decide)

/-- Counterexample to C3 as stated: the strict full-postcode match on the
7-character normalized input `B11AB11` succeeds after backtracking and
returns `("B1", "1AB")`, leaving the trailing `11` unconsumed, so the
concatenation of the two parts differs from the normalized input. -/
theorem c3_counterexample :
    parse_uk_postcode (str "B11AB11") true true = .ok (str "B1") (str "1AB")
    ∧ normalize (str "B11AB11") = str "B11AB11"
    ∧ str "B1" ++ str "1AB" ≠ str "B11AB11" := by decide

/-- Counterexample to C1 as stated: a tab character is whitespace but is not
stripped by `parse_uk_postcode`, which removes only spaces, so parsing a
string containing a tab differs from parsing the same string with all
whitespace removed and uppercased. -/
theorem c1_counterexample :
    parse_uk_postcode (str "a\tb") false false
      ≠ parse_uk_postcode (claimNormalize (str "a\tb")) false false
    ∧ claimNormalize (str "a\tb") = str "AB"
    ∧ parse_uk_postcode (str "a\tb") false false = .ok (str "A\tB") [] := by
  decide

/-- Claim C1 (amended): `parse_uk_postcode` first removes every space
character (internal included, but only spaces, not all whitespace) and
uppercases the result before any length check or validation:
`parse("cr0 2yr", true, true) = ("CR0", "2YR")`, and the result of parse on
any string equals the result of parse on that string with every space
removed and every letter uppercased. -/
theorem c1_space_normalization :
    (∀ (s : List Nat) (strict im : Bool),
        parse_uk_postcode s strict im =
          parse_uk_postcode (normalize s) strict im)
    ∧ parse_uk_postcode (str "cr0 2yr") true true =
        .ok (str "CR0") (str "2YR") := by
  refine ⟨?_, by decide⟩
  intro s strict im
  unfold parse_uk_postcode
  rw [normalize_idem]

/-- Claim C6: the Girobank literal is handled as a separate exact match in
strict mode: `GIR 0AA` parses to `("GIR", "0AA")`, a bare `GIR` is returned
with an empty incode when the incode is optional, and fails with
`IncodeNotFound` when the incode is mandatory. -/
theorem c6_girobank :
    parse_uk_postcode (str "GIR 0AA") true true = .ok (str "GIR") (str "0AA")
    ∧ parse_uk_postcode (str "GIR") true false = .ok (str "GIR") []
    ∧ parse_uk_postcode (str "GIR") true true = .err .incodeNotFound := by
  decide

/-- Claim C7: in strict mode the British Forces outcode `BF1` is accepted as
a special case, while `BF` is not a registered two-letter zone: for either
value of `incode_mandatory`, `BF1 4BB` parses to `("BF1", "4BB")` and
`BF2 4BB` fails with `InvalidPostcode`. -/
theorem c7_british_forces :
    ∀ im : Bool,
      parse_uk_postcode (str "BF1 4BB") true im =
        .ok (str "BF1") (str "4BB")
      ∧ parse_uk_postcode (str "BF2 4BB") true im =
          .err .invalidPostcode := by
  intro im
  cases im <;> decide

/-- Claim C9: `MaxLengthExceededError` and `IncodeNotFoundError` are
subclasses of `InvalidPostcodeError`, which is itself a subclass of the
builtin `ValueError`; hence every error `parse_uk_postcode` fails with is
caught both by a handler for `InvalidPostcodeError` and by a handler for
`ValueError`. -/
theorem c9_error_hierarchy :
    catches .invalidPostcodeError .maxLengthExceededError = true
    ∧ catches .invalidPostcodeError .incodeNotFoundError = true
    ∧ catches .valueError .invalidPostcodeError = true
    ∧ ∀ (s : List Nat) (strict im : Bool) (e : PostcodeError),
        parse_uk_postcode s strict im = .err e →
          catches .invalidPostcodeError (errClass e) = true
          ∧ catches .valueError (errClass e) = true := by
  refine ⟨rfl, rfl, rfl, ?_⟩
  intro s strict im e _
  cases e <;> exact ⟨rfl, rfl⟩

/-- Witness for C9 at a concrete failing call. -/
theorem c9_error_hierarchy_witness :
    catches .invalidPostcodeError (errClass .maxLengthExceeded) = true
    ∧ catches .valueError (errClass .maxLengthExceeded) = true :=
  c9_error_hierarchy.2.2.2 (str "ABCDEFGH") true true .maxLengthExceeded
    (by decide)

/-- Claim C10: on the empty string, non-strict parse with an optional incode
returns the pair of empty strings, while with a mandatory incode it fails
with `IncodeNotFound`: the non-strict branch places no lower bound on the
length of the input. -/
theorem c10_empty_string :
    parse_uk_postcode (str "") false false = .ok [] []
    ∧ parse_uk_postcode (str "") false true = .err .incodeNotFound := by
  decide

end UkPostcode
